import Mathlib

/-!
Verification of the task-tracker core (`src/task_tracker/task_tracker.py`).

The Python class `TaskTracker` keeps `self._tasks : dict[str, list[str]]`
(an insertion-ordered mapping from task id to the positional field list
`[createdAt, updatedAt, status, description]`) and `self._new_id : int`.
We embed the dictionary as an insertion-ordered association list with
unique keys, and each operation as a pure function.  `datetime.now()` is
passed in as an explicit `time : String` argument; printing an error
message is modelled as returning an error `Report` value.
-/

namespace TaskTrackerSpec

/-- Lookup in a Python dict modelled as an assoc list (first occurrence;
keys are unique in any state the program builds). -/
def dictLookup (k : String) : List (String × List String) → Option (List String)
  | [] => none
  | (k', v) :: rest => if k' = k then some v else dictLookup k rest

/-- Assignment `d[k] = v` on a Python dict: replace the value in place if the key is
present, otherwise append the binding at the end (insertion order). -/
def dictInsert (k : String) (v : List String) :
    List (String × List String) → List (String × List String)
  | [] => [(k, v)]
  | (k', v') :: rest =>
    if k' = k then (k, v) :: rest else (k', v') :: dictInsert k v rest

/-- In-place mutation `d[k][i] = x` generalised: apply `f` to the value
stored under `k`, keeping the binding's position. -/
def modifyTask (k : String) (f : List String → List String) :
    List (String × List String) → List (String × List String)
  | [] => []
  | (k', v) :: rest =>
    if k' = k then (k', f v) :: rest else (k', v) :: modifyTask k f rest

/-- Removal `d.pop(k)`: remove the binding for `k`, keeping the order of the rest. -/
def removeTask (k : String) :
    List (String × List String) → List (String × List String)
  | [] => []
  | (k', v) :: rest => if k' = k then rest else (k', v) :: removeTask k rest

/-- Class attribute `TaskTracker.task_properties` from the source. -/
def task_properties : List String :=
  ["id", "createdAt", "updatedAt", "status", "description"]

/-- Class attribute `TaskTracker.task_statuses` from the source. -/
def task_statuses : List String := ["todo", "in-progress", "done"]

/-- The in-memory state of the tracker: `self._tasks` and `self._new_id`. -/
structure TaskTracker where
  tasks : List (String × List String)
  new_id : Nat
  deriving Repr, DecidableEq

/-- Constructor `TaskTracker.__init__`: empty task dict, next id counter 1. -/
def TaskTracker.init : TaskTracker := ⟨[], 1⟩

/-- The error conditions the tracker reports (each is a `print` in the
source, never an exception). -/
inductive Report where
  | unknownTaskID (id : String)
  | invalidStatus (status : String)
  | corruptedStorage
  deriving Repr, DecidableEq

/-- The on-disk JSON value of one task: an object mapping field names to
string values, in file order. -/
abbrev TaskObject := List (String × String)

/-- The parsed top-level JSON object of the storage file: id keys mapped
to task objects, in file order. -/
abbrev ParsedFile := List (String × TaskObject)

/-- The state of the storage file: missing, present but not valid JSON
(`raw` is its text), or a parsed JSON object. -/
inductive FileContent where
  | absent
  | invalid (raw : String)
  | valid (file : ParsedFile)
  deriving Repr, DecidableEq

/-- Method `TaskTracker.add`: insert `[time, time, "todo", description]` under the
key `str(self._new_id)`, increment the counter, return the new id. -/
def TaskTracker.add (tt : TaskTracker) (time description : String) :
    TaskTracker × String :=
  let id := toString tt.new_id
  (⟨dictInsert id [time, time, "todo", description] tt.tasks, tt.new_id + 1⟩, id)

/-- Method `TaskTracker.update`: unknown id is reported and nothing changes;
otherwise positions 1 (updatedAt) and 3 (description) are overwritten. -/
def TaskTracker.update (tt : TaskTracker) (id description time : String) :
    TaskTracker × Option Report :=
  if dictLookup id tt.tasks = none then (tt, some (.unknownTaskID id))
  else
    (⟨modifyTask id (fun t => (t.set 1 time).set 3 description) tt.tasks,
      tt.new_id⟩, none)

/-- Method `TaskTracker.delete`: unknown id is reported and nothing changes;
otherwise the binding is popped. -/
def TaskTracker.delete (tt : TaskTracker) (id : String) :
    TaskTracker × Option Report :=
  if dictLookup id tt.tasks = none then (tt, some (.unknownTaskID id))
  else (⟨removeTask id tt.tasks, tt.new_id⟩, none)

/-- Method `TaskTracker.mark_status`: unknown id, then unknown status, are
reported and nothing changes; otherwise only position 2 (status) is
overwritten — the source has no write to position 1 (updatedAt). -/
def TaskTracker.mark_status (tt : TaskTracker) (id status : String) :
    TaskTracker × Option Report :=
  if dictLookup id tt.tasks = none then (tt, some (.unknownTaskID id))
  else if status ∉ task_statuses then (tt, some (.invalidStatus status))
  else (⟨modifyTask id (fun t => t.set 2 status) tt.tasks, tt.new_id⟩, none)

/-- Method `TaskTracker.list_by_status`: `""` lists every task, `"not-done"` those
whose position 2 differs from `"done"`, a valid status those whose
position 2 equals it; anything else is reported (`None` returned).  Each
listed row is `[id, *task]`. -/
def TaskTracker.list_by_status (tt : TaskTracker) (status : String) :
    Option (List (List String)) :=
  if status = "" then some (tt.tasks.map fun p => p.1 :: p.2)
  else if status = "not-done" then
    some ((tt.tasks.filter fun p => p.2.getD 2 "" ≠ "done").map fun p => p.1 :: p.2)
  else if status ∈ task_statuses then
    some ((tt.tasks.filter fun p => p.2.getD 2 "" = status).map fun p => p.1 :: p.2)
  else none

/-- Value of one decimal digit character, if it is one. -/
def digitValue (c : Char) : Option Nat :=
  if '0' ≤ c ∧ c ≤ '9' then some (c.toNat - '0'.toNat) else none

/-- Fold the digits of a decimal numeral, failing on a non-digit. -/
def parseDecimalAux : List Char → Nat → Option Nat
  | [], acc => some acc
  | c :: cs, acc =>
    match digitValue c with
    | none => none
    | some d => parseDecimalAux cs (acc * 10 + d)

/-- Python's `int(s)` restricted to plain decimal numerals: the digits'
value, or failure (Python raises `ValueError`) on anything else.  (Python
also accepts sign, surrounding whitespace and underscores; no key the
program itself writes, and none in the claims, uses those forms.) -/
def parseDecimal (s : String) : Option Nat :=
  match s.data with
  | [] => none
  | cs => parseDecimalAux cs 0

/-- The dictionary comprehension in `load`:
`{id: list(task.values()) for id, task in tasks.items()}` — field values
taken positionally, field names discarded, field count unchecked. -/
def parsedTasks (file : ParsedFile) : List (String × List String) :=
  file.map fun e => (e.1, e.2.map Prod.snd)

/-- Method `TaskTracker.load`.  A missing file is created holding `{}` and the
store is untouched; an unparseable file is reported as corrupted and
store and file are untouched; a parsed file replaces `self._tasks` by
`parsedTasks` and, when non-empty, sets `self._new_id` to
`int(tasks.popitem()[0]) + 1` — `popitem` takes the LAST key in file
order.  The outer `none` models the uncaught `ValueError` of `int(...)`
on a non-numeric last key (keys are parsed with `parseDecimal`). -/
def TaskTracker.load (tt : TaskTracker) (disk : FileContent) :
    Option (TaskTracker × FileContent × Option Report) :=
  match disk with
  | .absent => some (tt, .valid [], none)
  | .invalid raw => some (tt, .invalid raw, some .corruptedStorage)
  | .valid file =>
    match file.getLast? with
    | none => some ({ tt with tasks := parsedTasks file }, .valid file, none)
    | some e =>
      match parseDecimal e.1 with
      | none => none
      | some n => some (⟨parsedTasks file, n + 1⟩, .valid file, none)

/-- Method `TaskTracker.save`: serialize every task as
`dict(zip(task_properties[1:], task))` under its id key, fully replacing
the previous file contents. -/
def TaskTracker.save (tt : TaskTracker) : ParsedFile :=
  tt.tasks.map fun e => (e.1, List.zip (task_properties.drop 1) e.2)

/-- One mutating call of the tracker, with the wall-clock time an explicit
argument where the Python code reads `datetime.now()`. -/
inductive Op where
  | add (time description : String)
  | update (id description time : String)
  | delete (id : String)
  | mark (id status : String)
  deriving Repr, DecidableEq

/-- Run one operation, keeping only the resulting store state. -/
def applyOp (tt : TaskTracker) : Op → TaskTracker
  | .add t d => (tt.add t d).1
  | .update i d t => (tt.update i d t).1
  | .delete i => (tt.delete i).1
  | .mark i s => (tt.mark_status i s).1

/-- Run a whole sequence of operations. -/
def applyOps (tt : TaskTracker) (ops : List Op) : TaskTracker :=
  ops.foldl applyOp tt

/-- Every task in the dict has a status (position 2) in the valid enum. -/
def statusesValid (l : List (String × List String)) : Prop :=
  ∀ p ∈ l, p.2.getD 2 "" ∈ task_statuses

/-- Run a sequence of `add` calls, collecting the returned ids. -/
def addAll (tt : TaskTracker) : List (String × String) → TaskTracker × List String
  | [] => (tt, [])
  | (t, d) :: rest =>
    let r := tt.add t d
    let rr := addAll r.1 rest
    (rr.1, r.2 :: rr.2)

/-- Rewrite every field name of every task object in a persisted file,
leaving the field values untouched. -/
def renameFields (rename : String → String) (file : ParsedFile) : ParsedFile :=
  file.map fun en => (en.1, en.2.map fun fv => (rename fv.1, fv.2))

/-- A concrete store with task 1 done and task 2 todo, counter 3. -/
def exampleStore : TaskTracker :=
  ⟨[("1", ["2024-01-01 10:00:00", "2024-01-01 10:00:00", "done", "buy milk"]),
    ("2", ["2024-01-03 09:30:00", "2024-01-03 09:30:00", "todo", "walk dog"])], 3⟩

/-- A concrete parsed file whose keys appear in increasing order. -/
def orderedFile : ParsedFile :=
  [("1", [("createdAt", "2024-01-01 00:00:00"), ("updatedAt", "2024-01-01 00:00:00"),
          ("status", "todo"), ("description", "first")]),
   ("2", [("createdAt", "2024-01-02 00:00:00"), ("updatedAt", "2024-01-02 00:00:00"),
          ("status", "todo"), ("description", "second")])]

/-- A concrete parsed file whose numerically largest key "2" appears
FIRST, so it is not the key `popitem` pops. -/
def reorderedFile : ParsedFile :=
  [("2", [("createdAt", "2024-01-02 00:00:00"), ("updatedAt", "2024-01-02 00:00:00"),
          ("status", "todo"), ("description", "second")]),
   ("1", [("createdAt", "2024-01-01 00:00:00"), ("updatedAt", "2024-01-01 00:00:00"),
          ("status", "todo"), ("description", "first")])]

/-- A concrete parsed file carrying a status value outside the enum. -/
def badStatusFile : ParsedFile :=
  [("1", [("createdAt", "2024-01-01 00:00:00"), ("updatedAt", "2024-01-01 00:00:00"),
          ("status", "banana"), ("description", "first")])]

/-- A concrete store whose numerically largest id "2" is listed first
(such a state arises from loading `reorderedFile`). -/
def reorderedStore : TaskTracker :=
  ⟨[("2", ["2024-01-02 00:00:00", "2024-01-02 00:00:00", "todo", "second"]),
    ("1", ["2024-01-01 00:00:00", "2024-01-01 00:00:00", "todo", "first"])], 3⟩

/-- A concrete parsed file whose single task object has two fields with
names unlike the serializer's and fewer than four of them. -/
def oddFieldsFile : ParsedFile := [("7", [("z", "a"), ("y", "b")])]

/-- A concrete operation sequence exercising all four mutations. -/
def opsExample : List Op :=
  [.add "2024-01-01 10:00:00" "buy milk",
   .mark "1" "done",
   .add "2024-01-02 11:00:00" "walk dog",
   .update "2" "feed cat" "2024-01-03 12:00:00",
   .delete "1"]

/-- Modifying the value under `k` is what lookup at `k` sees. -/
theorem dictLookup_modifyTask_self (k : String) (f : List String → List String)
    (l : List (String × List String)) :
    dictLookup k (modifyTask k f l) = (dictLookup k l).map f := by
  induction l with
  | nil => rfl
  | cons p rest ih =>
    obtain ⟨k', v⟩ := p
    by_cases h : k' = k
    · simp [modifyTask, dictLookup, h]
    · simp [modifyTask, dictLookup, h, ih]

/-- Modifying the value under `k` is invisible to lookup at other keys. -/
theorem dictLookup_modifyTask_ne (k k' : String) (f : List String → List String)
    (l : List (String × List String)) (hne : k' ≠ k) :
    dictLookup k' (modifyTask k f l) = dictLookup k' l := by
  induction l with
  | nil => rfl
  | cons p rest ih =>
    obtain ⟨a, v⟩ := p
    by_cases h : a = k
    · subst h
      simp [modifyTask, dictLookup, Ne.symm hne]
    · by_cases h' : a = k'
      · subst h'
        simp [modifyTask, dictLookup, hne]
      · simp [modifyTask, dictLookup, h, h', ih]

/-- Membership after a dict assignment: the new binding or an old one. -/
theorem mem_dictInsert (p : String × List String) (k : String) (v : List String)
    (l : List (String × List String)) (hp : p ∈ dictInsert k v l) :
    p = (k, v) ∨ p ∈ l := by
  induction l with
  | nil => simpa [dictInsert] using hp
  | cons q rest ih =>
    obtain ⟨a, w⟩ := q
    by_cases h : a = k
    · simp only [dictInsert, if_pos h, List.mem_cons] at hp
      rcases hp with hp | hp
      · exact Or.inl hp
      · exact Or.inr (List.mem_cons_of_mem _ hp)
    · simp only [dictInsert, if_neg h, List.mem_cons] at hp
      rcases hp with hp | hp
      · exact Or.inr (by simp [hp])
      · rcases ih hp with hp' | hp'
        · exact Or.inl hp'
        · exact Or.inr (List.mem_cons_of_mem _ hp')

/-- Membership after an in-place value modification: an old binding, or
an old binding with `f` applied to its value. -/
theorem mem_modifyTask (p : String × List String) (k : String)
    (f : List String → List String) (l : List (String × List String))
    (hp : p ∈ modifyTask k f l) :
    p ∈ l ∨ ∃ q ∈ l, p = (q.1, f q.2) := by
  induction l with
  | nil => simp [modifyTask] at hp
  | cons q rest ih =>
    obtain ⟨a, w⟩ := q
    by_cases h : a = k
    · simp only [modifyTask, if_pos h, List.mem_cons] at hp
      rcases hp with hp | hp
      · exact Or.inr ⟨(a, w), by simp, by simp [hp]⟩
      · exact Or.inl (List.mem_cons_of_mem _ hp)
    · simp only [modifyTask, if_neg h, List.mem_cons] at hp
      rcases hp with hp | hp
      · exact Or.inl (by simp [hp])
      · rcases ih hp with hp' | ⟨q', hq', hpq⟩
        · exact Or.inl (List.mem_cons_of_mem _ hp')
        · exact Or.inr ⟨q', List.mem_cons_of_mem _ hq', hpq⟩

/-- Membership after a pop is membership before. -/
theorem mem_removeTask (p : String × List String) (k : String)
    (l : List (String × List String)) (hp : p ∈ removeTask k l) : p ∈ l := by
  induction l with
  | nil => simp [removeTask] at hp
  | cons q rest ih =>
    obtain ⟨a, w⟩ := q
    by_cases h : a = k
    · simp only [removeTask, if_pos h] at hp
      exact List.mem_cons_of_mem _ hp
    · simp only [removeTask, if_neg h, List.mem_cons] at hp
      rcases hp with hp | hp
      · simp [hp]
      · exact List.mem_cons_of_mem _ (ih hp)

/-- Writing one list position leaves the others as they were. -/
theorem getD_set_ne (l : List String) (i j : Nat) (v d : String) (hij : i ≠ j) :
    (l.set i v).getD j d = l.getD j d := by
  induction l generalizing i j with
  | nil => rfl
  | cons a tl ih =>
    cases i with
    | zero =>
      cases j with
      | zero => exact absurd rfl hij
      | succ jj => rfl
    | succ ii =>
      cases j with
      | zero => rfl
      | succ jj => exact ih ii jj (fun h => hij (by omega))

/-- Writing a position that exists is what a read of it returns. -/
theorem getD_set_self (l : List String) (i : Nat) (v d : String)
    (hi : i < l.length) : (l.set i v).getD i d = v := by
  induction l generalizing i with
  | nil => simp at hi
  | cons a tl ih =>
    cases i with
    | zero => rfl
    | succ ii => exact ih ii (by simpa using hi)

/-- C5: when the storage file exists but cannot be parsed, `load` reports
corrupted storage as a value (no exception), leaves whatever store it was
called on unchanged — hence the fresh startup store stays empty — and
leaves the on-disk file exactly as it was. -/
theorem C5_load_corrupted (tt : TaskTracker) (raw : String) :
    tt.load (.invalid raw) = some (tt, .invalid raw, some .corruptedStorage) ∧
    TaskTracker.init.load (.invalid raw) =
      some (TaskTracker.init, .invalid raw, some .corruptedStorage) ∧
    TaskTracker.init.tasks = [] :=
  ⟨rfl, rfl, rfl⟩

/-- C7: `update`, `delete` and `mark_status` on an id absent from the
store each report `unknownTaskID` as a value and return the store
completely unchanged (same tasks, same counter). -/
theorem C7_unknown_id (tt : TaskTracker) (id desc time status : String)
    (habs : dictLookup id tt.tasks = none) :
    tt.update id desc time = (tt, some (.unknownTaskID id)) ∧
    tt.delete id = (tt, some (.unknownTaskID id)) ∧
    tt.mark_status id status = (tt, some (.unknownTaskID id)) := by
  refine ⟨?_, ?_, ?_⟩ <;>
    simp [TaskTracker.update, TaskTracker.delete, TaskTracker.mark_status, habs]

/-- Witness for C7 at the concrete store `exampleStore` and id "999". -/
theorem C7_unknown_id_witness :
    exampleStore.update "999" "x" "2024-01-05 00:00:00" =
      (exampleStore, some (.unknownTaskID "999")) ∧
    exampleStore.delete "999" = (exampleStore, some (.unknownTaskID "999")) ∧
    exampleStore.mark_status "999" "done" =
      (exampleStore, some (.unknownTaskID "999")) :=
  C7_unknown_id exampleStore "999" "x" "2024-01-05 00:00:00" "done" (by decide)

/-- C9 (counterexample): the claim's filter token "all" does not list the
tasks — `list_by_status` rejects it (returns `none`, the invalid-filter
report) even on a store holding exactly the freshly added task. -/
theorem C9_counterexample :
    ((TaskTracker.init.add "2024-01-01 10:00:00" "buy milk").1.list_by_status
      "all") = none ∧
    (TaskTracker.init.add "2024-01-01 10:00:00" "buy milk").1.tasks ≠ [] := by
  constructor
  · rfl
  · decide

/-- C9 (amended): `add` on the empty store followed by the all-tasks
listing — whose token is the empty string, the value the CLI passes for a
bare `list` — yields exactly one task, with id "1", status "todo", the
given description, and `createdAt` equal to `updatedAt`. -/
theorem C9_add_then_list_all (time desc : String) :
    ((TaskTracker.init.add time desc).1.list_by_status "") =
      some [["1", time, time, "todo", desc]] ∧
    (TaskTracker.init.add time desc).2 = "1" :=
  ⟨rfl, rfl⟩

/-- C1 (counterexample): marking task "1" of `exampleStore` (whose
`updatedAt` is "2024-01-01 10:00:00") as "in-progress" changes the status
but leaves `updatedAt` at its old value — `mark_status` never writes
position 1, so `updatedAt` is not refreshed to the current time. -/
theorem C1_counterexample :
    (exampleStore.mark_status "1" "in-progress").1.tasks =
      [("1", ["2024-01-01 10:00:00", "2024-01-01 10:00:00", "in-progress",
              "buy milk"]),
       ("2", ["2024-01-03 09:30:00", "2024-01-03 09:30:00", "todo",
              "walk dog"])] ∧
    ((exampleStore.mark_status "1" "in-progress").1.tasks.map
      fun p => p.2.getD 1 "") = ["2024-01-01 10:00:00", "2024-01-03 09:30:00"] := by
  constructor
  · rfl
  · rfl

/-- C1 (amended): for every store, every id present with a four-field
task `[c, u, s, d]` and every status in the valid enum, `mark_status`
succeeds, sets the task's status to the given value, and leaves the
task's `createdAt`, `updatedAt` and `description` unchanged (`updatedAt`
is NOT refreshed), while every other task and the next-id counter are
untouched. -/
theorem C1_mark_status_frame (tt : TaskTracker) (id status c u s d : String)
    (hfound : dictLookup id tt.tasks = some [c, u, s, d])
    (hstatus : status ∈ task_statuses) :
    (tt.mark_status id status).2 = none ∧
    (tt.mark_status id status).1.new_id = tt.new_id ∧
    dictLookup id (tt.mark_status id status).1.tasks =
      some [c, u, status, d] ∧
    ∀ id', id' ≠ id →
      dictLookup id' (tt.mark_status id status).1.tasks =
        dictLookup id' tt.tasks := by
  have hne : ¬ dictLookup id tt.tasks = none := by simp [hfound]
  refine ⟨?_, ?_, ?_, ?_⟩
  · simp [TaskTracker.mark_status, hne, hstatus]
  · simp [TaskTracker.mark_status, hne, hstatus]
  · simp only [TaskTracker.mark_status, if_neg hne, hstatus, not_true_eq_false,
      if_neg, if_false]
    rw [dictLookup_modifyTask_self, hfound]
    rfl
  · intro id' hid'
    simp only [TaskTracker.mark_status, if_neg hne, hstatus, not_true_eq_false,
      if_neg, if_false]
    exact dictLookup_modifyTask_ne id id' _ tt.tasks hid'

/-- Witness for C1 at `exampleStore`, task "1", status "in-progress",
with the unchanged-other-task clause instantiated at id "2". -/
theorem C1_mark_status_frame_witness :
    (exampleStore.mark_status "1" "in-progress").2 = none ∧
    (exampleStore.mark_status "1" "in-progress").1.new_id = 3 ∧
    dictLookup "1" (exampleStore.mark_status "1" "in-progress").1.tasks =
      some ["2024-01-01 10:00:00", "2024-01-01 10:00:00", "in-progress",
            "buy milk"] ∧
    dictLookup "2" (exampleStore.mark_status "1" "in-progress").1.tasks =
      dictLookup "2" exampleStore.tasks := by
  have h := C1_mark_status_frame exampleStore "1" "in-progress"
    "2024-01-01 10:00:00" "2024-01-01 10:00:00" "done" "buy milk"
    (by decide) (by decide)
  exact ⟨h.1, h.2.1, h.2.2.1, h.2.2.2 "2" (by decide)⟩

/-- C2 (counterexample): on a store that is not empty, the filter token
"all" does not yield every task — it is rejected as an invalid filter
(`none` is returned after the report is printed). -/
theorem C2_counterexample :
    exampleStore.list_by_status "all" = none ∧ exampleStore.tasks ≠ [] := by
  constructor
  · rfl
  · decide

/-- C2 (amended): for every store, the empty filter token `""` — the
value the CLI passes for a bare `list` command — yields every task;
`"not-done"` yields exactly the tasks whose status field differs from
"done"; a token that is itself a valid status yields exactly the tasks
with that status; and every other token, "all" included, is rejected
with the invalid-filter report (`none`). -/
theorem C2_list_by_status_cases (tt : TaskTracker) :
    tt.list_by_status "" = some (tt.tasks.map fun p => p.1 :: p.2) ∧
    tt.list_by_status "not-done" =
      some ((tt.tasks.filter fun p => p.2.getD 2 "" ≠ "done").map
        fun p => p.1 :: p.2) ∧
    (∀ s ∈ task_statuses,
      tt.list_by_status s =
        some ((tt.tasks.filter fun p => p.2.getD 2 "" = s).map
          fun p => p.1 :: p.2)) ∧
    ∀ s, s ≠ "" → s ≠ "not-done" → s ∉ task_statuses →
      tt.list_by_status s = none := by
  refine ⟨rfl, rfl, ?_, ?_⟩
  · intro s hs
    have h1 : s ≠ "" := by rintro rfl; revert hs; decide
    have h2 : s ≠ "not-done" := by rintro rfl; revert hs; decide
    simp [TaskTracker.list_by_status, h1, h2, hs]
  · intro s h1 h2 h3
    simp [TaskTracker.list_by_status, h1, h2, h3]

/-- Witness for C2 at `exampleStore` (task 1 done, task 2 todo): the
status filter "todo" yields exactly task 2 and the token "all" is
rejected. -/
theorem C2_list_by_status_cases_witness :
    exampleStore.list_by_status "todo" =
      some [["2", "2024-01-03 09:30:00", "2024-01-03 09:30:00", "todo",
             "walk dog"]] ∧
    exampleStore.list_by_status "all" = none := by
  have h := C2_list_by_status_cases exampleStore
  exact ⟨(h.2.2.1 "todo" (by decide)).trans (by decide),
         h.2.2.2 "all" (by decide) (by decide) (by decide)⟩

/-- C3 (counterexample): loading `reorderedFile`, whose numerically
largest key "2" appears first and whose last key is "1", sets the
counter to 1 + 1 = 2, not to (largest key) + 1 = 3: `popitem` takes the
last key in file order, so the result depends on the key order. -/
theorem C3_counterexample :
    ((TaskTracker.init.load (.valid reorderedFile)).map
      fun r => r.1.new_id) = some 2 ∧
    ((reorderedFile.map fun e => (parseDecimal e.1).getD 0).max? = some 2) ∧
    ¬ ((TaskTracker.init.load (.valid reorderedFile)).map
      fun r => r.1.new_id) = some (2 + 1) := by
  refine ⟨rfl, by decide, by decide⟩

/-- C3 (amended): on a successfully parsed persisted mapping whose LAST
key (in file order — the key `popitem` returns) parses as the natural
`n`, `load` sets the next-id counter to `n + 1`; this equals (largest
key) + 1 only when the largest key comes last.  On an empty persisted
mapping the counter is left alone, so it stays at its default 1 on the
fresh store that `load` runs against at startup. -/
theorem C3_load_counter (tt : TaskTracker) (file : ParsedFile)
    (e : String × TaskObject) (n : Nat)
    (hlast : file.getLast? = some e) (hkey : parseDecimal e.1 = some n) :
    tt.load (.valid file) =
      some (⟨parsedTasks file, n + 1⟩, .valid file, none) ∧
    TaskTracker.init.load (.valid []) =
      some (TaskTracker.init, .valid [], none) := by
  constructor
  · simp [TaskTracker.load, hlast, hkey]
  · rfl

/-- Witness for C3 at `orderedFile` (keys "1", "2" in order): the last
key "2" gives counter 3. -/
theorem C3_load_counter_witness :
    TaskTracker.init.load (.valid orderedFile) =
      some (⟨[("1", ["2024-01-01 00:00:00", "2024-01-01 00:00:00", "todo",
                     "first"]),
              ("2", ["2024-01-02 00:00:00", "2024-01-02 00:00:00", "todo",
                     "second"])], 3⟩, .valid orderedFile, none) ∧
    TaskTracker.init.load (.valid []) =
      some (TaskTracker.init, .valid [], none) := by
  have h := C3_load_counter TaskTracker.init orderedFile
    ("2", [("createdAt", "2024-01-02 00:00:00"),
           ("updatedAt", "2024-01-02 00:00:00"),
           ("status", "todo"), ("description", "second")]) 2
    (by decide) (by decide)
  exact ⟨h.1.trans (by decide), h.2⟩

/-- C4 (counterexample): loading a parsed file whose task carries the
status "banana" stores that task unchanged — `load` performs no status
validation, so a store reached through `load` can hold a status outside
the valid enum. -/
theorem C4_counterexample :
    ((TaskTracker.init.load (.valid badStatusFile)).map
      fun r => r.1.tasks.map fun p => p.2.getD 2 "") = some ["banana"] ∧
    "banana" ∉ task_statuses := by
  refine ⟨rfl, by decide⟩

/-- Every single `add`/`update`/`delete`/`mark_status` call keeps every
stored status inside the valid enum. -/
theorem statusesValid_applyOp (tt : TaskTracker) (op : Op)
    (h : statusesValid tt.tasks) : statusesValid (applyOp tt op).tasks := by
  cases op with
  | add t d =>
    intro p hp
    rcases mem_dictInsert p _ _ _ hp with h1 | h1
    · subst h1
      show ([t, t, "todo", d].getD 2 "") ∈ task_statuses
      simp [task_statuses, List.getD]
    · exact h p h1
  | update i d t =>
    by_cases hc : dictLookup i tt.tasks = none
    · simpa [applyOp, TaskTracker.update, hc] using h
    · simp only [applyOp, TaskTracker.update, if_neg hc]
      intro p hp
      rcases mem_modifyTask p _ _ _ hp with h1 | ⟨q, hq, rfl⟩
      · exact h p h1
      · have hq2 := h q hq
        show (((q.2.set 1 t).set 3 d).getD 2 "") ∈ task_statuses
        rw [getD_set_ne _ 3 2 _ _ (by omega), getD_set_ne _ 1 2 _ _ (by omega)]
        exact hq2
  | delete i =>
    by_cases hc : dictLookup i tt.tasks = none
    · simpa [applyOp, TaskTracker.delete, hc] using h
    · simp only [applyOp, TaskTracker.delete, if_neg hc]
      intro p hp
      exact h p (mem_removeTask p _ _ hp)
  | mark i s =>
    by_cases hc : dictLookup i tt.tasks = none
    · simpa [applyOp, TaskTracker.mark_status, hc] using h
    · by_cases hs : s ∈ task_statuses
      · simp only [applyOp, TaskTracker.mark_status, if_neg hc, hs,
          not_true_eq_false, if_false]
        intro p hp
        rcases mem_modifyTask p _ _ _ hp with h1 | ⟨q, hq, rfl⟩
        · exact h p h1
        · have hq2 := h q hq
          have hlen : 2 < q.2.length := by
            by_contra hle
            rw [List.getD_eq_default] at hq2
            · revert hq2; decide
            · omega
          show ((q.2.set 2 s).getD 2 "") ∈ task_statuses
          rw [getD_set_self _ 2 _ _ hlen]
          exact hs
      · simpa [applyOp, TaskTracker.mark_status, hc, hs] using h

/-- C4 (amended): every sequence of `add`, `update`, `delete` and
`mark_status` calls preserves the invariant that every stored task's
status lies in the valid enum — but this does not extend to `load`,
which stores whatever status values the persisted file carries. -/
theorem C4_ops_preserve_status (tt : TaskTracker) (ops : List Op)
    (h : statusesValid tt.tasks) : statusesValid (applyOps tt ops).tasks := by
  induction ops generalizing tt with
  | nil => exact h
  | cons op rest ih =>
    have : applyOps tt (op :: rest) = applyOps (applyOp tt op) rest := rfl
    rw [this]
    exact ih _ (statusesValid_applyOp tt op h)

/-- Witness for C4: the concrete sequence `opsExample` run from the empty
store keeps all statuses valid. -/
theorem C4_ops_preserve_status_witness :
    statusesValid (applyOps TaskTracker.init opsExample).tasks :=
  C4_ops_preserve_status TaskTracker.init opsExample
    (fun p hp => absurd hp (List.not_mem_nil p))

/-- Helper for C8: the ids returned by a run of `add` calls are the
decimal renderings of the consecutive counters starting at the store's
current one. -/
theorem addAll_ids (inputs : List (String × String)) : ∀ tt : TaskTracker,
    (addAll tt inputs).2 =
      (List.range inputs.length).map fun i => toString (tt.new_id + i) := by
  induction inputs with
  | nil => intro tt; rfl
  | cons td rest ih =>
    intro tt
    obtain ⟨t, d⟩ := td
    have harith : ∀ i : Nat, tt.new_id + 1 + i = tt.new_id + (i + 1) := by omega
    simp only [addAll, TaskTracker.add, ih, List.length_cons,
      List.range_succ_eq_map, List.map_cons, List.map_map, Function.comp_def,
      Nat.succ_eq_add_one, harith, Nat.add_zero]

/-- C8: a run of `add` calls on the fresh store returns exactly the
decimal ids "1", "2", ..., n in order — strictly increasing, no gaps, no
repeats — and `delete` never changes (in particular never decrements)
the next-id counter. -/
theorem C8_add_ids_delete_counter (inputs : List (String × String))
    (tt : TaskTracker) (id : String) :
    (addAll TaskTracker.init inputs).2 =
      ((List.range inputs.length).map fun i => toString (1 + i)) ∧
    (tt.delete id).1.new_id = tt.new_id := by
  constructor
  · exact addAll_ids inputs TaskTracker.init
  · by_cases h : dictLookup id tt.tasks = none <;> simp [TaskTracker.delete, h]

/-- Zipping the (longer) field-name list against the field values and
keeping the values recovers the values. -/
theorem map_snd_zip_of_le (l2 : List String) : ∀ l1 : List String,
    l2.length ≤ l1.length → (List.zip l1 l2).map Prod.snd = l2 := by
  induction l2 with
  | nil => intro l1 h; simp
  | cons b tl ih =>
    intro l1 h
    cases l1 with
    | nil => simp at h
    | cons a l1' =>
      simp only [List.zip_cons_cons, List.map_cons]
      rw [ih l1' (by simpa using h)]

/-- Saving and reparsing the task dict recovers it exactly, provided no
task carries more than the four serialized fields (`zip` would silently
drop the surplus). -/
theorem parsedTasks_save (tt : TaskTracker)
    (hlen : ∀ p ∈ tt.tasks, p.2.length ≤ 4) :
    parsedTasks tt.save = tt.tasks := by
  unfold parsedTasks TaskTracker.save
  rw [List.map_map]
  have main : ∀ l : List (String × List String), (∀ p ∈ l, p.2.length ≤ 4) →
      l.map ((fun e => (e.1, e.2.map Prod.snd)) ∘
        fun e => (e.1, List.zip (task_properties.drop 1) e.2)) = l := by
    intro l hl
    induction l with
    | nil => rfl
    | cons p rest ih =>
      simp only [List.map_cons]
      rw [ih fun q hq => hl q (List.mem_cons_of_mem _ hq)]
      congr 1
      show (p.1, (List.zip (task_properties.drop 1) p.2).map Prod.snd) = p
      rw [map_snd_zip_of_le p.2 _
        (by simpa [task_properties] using hl p (by simp))]
  exact main tt.tasks hlen

/-- C6 (counterexample): saving `reorderedStore` (ids "2" then "1" in
insertion order) and loading the result gives counter 1 + 1 = 2, not
(maximum key) + 1 = 3: the counter is derived from the LAST key of the
saved file, not from its maximum. -/
theorem C6_counterexample :
    ((TaskTracker.init.load (.valid reorderedStore.save)).map
      fun r => r.1.new_id) = some 2 ∧
    ((reorderedStore.save.map fun e => (parseDecimal e.1).getD 0).max? =
      some 2) ∧
    ¬ ((TaskTracker.init.load (.valid reorderedStore.save)).map
      fun r => r.1.new_id) = some (2 + 1) := by
  refine ⟨rfl, by decide, by decide⟩

/-- C6 (amended): for every store whose tasks have (at most) the four
serialized fields and numeric ids, saving and then loading reproduces
exactly the same tasks — same ids and same (createdAt, updatedAt,
status, description) tuples, even in the same order — while the next-id
counter after the load is (decimal value of the LAST key of the saved
file) + 1, or stays 1 when the store was empty; it equals
(maximum key) + 1 only when the numerically largest id comes last. -/
theorem C6_save_load_roundtrip (tt : TaskTracker)
    (hlen : ∀ p ∈ tt.tasks, p.2.length ≤ 4)
    (hkeys : ∀ p ∈ tt.tasks, (parseDecimal p.1).isSome) :
    ∃ tt', TaskTracker.init.load (.valid tt.save) =
        some (tt', .valid tt.save, none) ∧
      tt'.tasks = tt.tasks ∧
      tt'.new_id =
        (tt.tasks.getLast?.map fun p => (parseDecimal p.1).getD 0).getD 0
          + 1 := by
  cases hlast : tt.tasks.getLast? with
  | none =>
    have hnil : tt.tasks = [] := List.getLast?_eq_none_iff.mp hlast
    exact ⟨TaskTracker.init, by simp [TaskTracker.save, hnil, TaskTracker.load,
      parsedTasks, TaskTracker.init], by simp [hnil, TaskTracker.init], rfl⟩
  | some e =>
    have hmem : e ∈ tt.tasks := List.mem_of_getLast?_eq_some hlast
    have hsavelast : tt.save.getLast? =
        some (e.1, List.zip (task_properties.drop 1) e.2) := by
      unfold TaskTracker.save
      rw [List.getLast?_map, hlast]
      rfl
    obtain ⟨n, hn⟩ := Option.isSome_iff_exists.mp (hkeys e hmem)
    refine ⟨⟨parsedTasks tt.save, n + 1⟩, ?_, parsedTasks_save tt hlen, ?_⟩
    · simp [TaskTracker.load, hsavelast, hn]
    · simp [hlast, hn]

/-- Witness for C6 at `exampleStore`: the round trip reproduces its two
tasks and sets the counter to 2 + 1 = 3. -/
theorem C6_save_load_roundtrip_witness :
    ∃ tt', TaskTracker.init.load (.valid exampleStore.save) =
        some (tt', .valid exampleStore.save, none) ∧
      tt'.tasks = exampleStore.tasks ∧ tt'.new_id = 3 := by
  obtain ⟨tt', h1, h2, h3⟩ :=
    C6_save_load_roundtrip exampleStore (by decide) (by decide)
  exact ⟨tt', h1, h2, h3.trans (by decide)⟩

/-- C10: `load` assigns the values of each task object to the task
positionally, in file order, never consulting the field names or their
number: for every parsed file (whose last key is numeric, so that the
counter derivation succeeds) and EVERY renaming of the field names, the
load is accepted without error and yields the same tasks — each task
being exactly the value list of its object, however many fields it has
and whatever they are called. -/
theorem C10_load_positional (tt : TaskTracker) (file : ParsedFile)
    (e : String × TaskObject) (n : Nat)
    (hlast : file.getLast? = some e) (hkey : parseDecimal e.1 = some n) :
    ∀ rename : String → String,
      tt.load (.valid (renameFields rename file)) =
        some (⟨parsedTasks file, n + 1⟩,
          .valid (renameFields rename file), none) := by
  intro rename
  have h1 : (renameFields rename file).getLast? =
      some (e.1, e.2.map fun fv => (rename fv.1, fv.2)) := by
    unfold renameFields
    rw [List.getLast?_map, hlast]
    rfl
  have h2 : parsedTasks (renameFields rename file) = parsedTasks file := by
    unfold parsedTasks renameFields
    rw [List.map_map]
    apply List.map_congr_left
    intro en _
    show (en.1, (en.2.map fun fv => (rename fv.1, fv.2)).map Prod.snd) =
      (en.1, en.2.map Prod.snd)
    rw [List.map_map]
    rfl
  simp [TaskTracker.load, h1, hkey, h2]

/-- Witness for C10 at `oddFieldsFile` (one task, two fields, names "z"
and "y") with every field name renamed to "field": accepted, and the two
values land positionally. -/
theorem C10_load_positional_witness :
    TaskTracker.init.load
        (.valid (renameFields (fun _ => "field") oddFieldsFile)) =
      some (⟨[("7", ["a", "b"])], 8⟩,
        .valid (renameFields (fun _ => "field") oddFieldsFile), none) := by
  have h := C10_load_positional TaskTracker.init oddFieldsFile
    ("7", [("z", "a"), ("y", "b")]) 7 (by decide) (by decide)
    (fun _ => "field")
  exact h.trans (by decide)

end TaskTrackerSpec
